import Mathlib

/-!
Verification development for the `lambda-mcp-adaptor` repository.

Shallow embedding of the protocol dispatch and schema-validation engine:
* `src/schema-utils.mjs` — Zod-schema translation (`zodToJsonSchema`,
  `convertZodTypeToJsonSchema`, `isZodOptional`, `hasZodDefault`) and
  argument validation (`validateWithZod`);
* `src/mcp-server.mjs` — the `MCPServer` class (registries, the validating
  handler wrapper, and `handleRequest` with its eight-method dispatch);
* `src/lambda-adapter.mjs` — `handleMCPRequest`, `createResponse`,
  `createErrorResponse` (the JSON-RPC transport boundary).

JavaScript runtime values are modelled by the inductive `JsonValue`
(`undef` standing for JavaScript's `undefined`); JavaScript objects and
`Map`s are association lists preserving insertion order, with `Map.set` /
property-assignment semantics given by `mapSet`.  Handlers are pure
functions into `Except String`, an exception being modelled by `.error`
carrying the exception's `message`.
-/

/-- A JavaScript runtime value (the subset the adapter manipulates). -/
inductive JsonValue : Type where
  | null : JsonValue
  | undef : JsonValue
  | bool (b : Bool) : JsonValue
  | num (n : Int) : JsonValue
  | str (s : String) : JsonValue
  | arr (elems : List JsonValue) : JsonValue
  | obj (fields : List (String × JsonValue)) : JsonValue
deriving Repr

/-- JavaScript property assignment `o[k] = v` on an object modelled as an
insertion-ordered association list: an existing key is updated in place,
a fresh key is appended. `Map.prototype.set` has the same semantics. -/
def mapSet {α : Type} (m : List (String × α)) (k : String) (v : α) : List (String × α) :=
  match m with
  | [] => [(k, v)]
  | (k', v') :: rest => if k' = k then (k, v) :: rest else (k', v') :: mapSet rest k v

/-- `Map.prototype.get` / object lookup returning `none` for a missing key. -/
def mapGet {α : Type} (m : List (String × α)) (k : String) : Option α :=
  match m with
  | [] => none
  | (k', v') :: rest => if k' = k then some v' else mapGet rest k

/-- JavaScript property read `o[k]`, which yields `undefined` on a missing key. -/
def objGet (fields : List (String × JsonValue)) (k : String) : JsonValue :=
  match mapGet fields k with
  | some v => v
  | none => JsonValue.undef

/-- Whether a JavaScript value is `undefined` (`v === undefined`). -/
def JsonValue.isUndef : JsonValue → Bool
  | .undef => true
  | _ => false

/-- Field lookup on a `JsonValue` that is an object; `none` otherwise. -/
def JsonValue.getField : JsonValue → String → Option JsonValue
  | .obj fields, k => mapGet fields k
  | _, _ => none

/-- `String.prototype.includes`: substring containment test. -/
def strIncludes (s pat : String) : Bool :=
  decide (pat.toList <:+: s.toList)

/-- The runtime type name JavaScript/Zod reports for a value, used in
type-mismatch error messages. -/
def JsonValue.typeName : JsonValue → String
  | .null => "null"
  | .undef => "undefined"
  | .bool _ => "boolean"
  | .num _ => "number"
  | .str _ => "string"
  | .arr _ => "array"
  | .obj _ => "object"

/-- A check attached to a `z.string()` schema (`_def.checks` entries the
converter in `src/schema-utils.mjs` recognises). -/
inductive StrCheck : Type where
  | min (n : Nat) : StrCheck
  | max (n : Nat) : StrCheck
  | email : StrCheck
  | url : StrCheck
  | uuid : StrCheck
deriving Repr, DecidableEq

/-- A check attached to a `z.number()` schema. -/
inductive NumCheck : Type where
  | min (v : Int) : NumCheck
  | max (v : Int) : NumCheck
  | int : NumCheck
deriving Repr, DecidableEq

mutual
/-- A Zod schema, as the closed set of runtime classes the adapter's
`instanceof` walk in `convertZodTypeToJsonSchema` distinguishes.  Each
non-wrapper constructor carries its optional `.description`.  `unknown`
is any Zod class outside the recognised set (the converter's fallback). -/
inductive ZodType : Type where
  | string (checks : List StrCheck) (descr : Option String) : ZodType
  | number (checks : List NumCheck) (descr : Option String) : ZodType
  | boolean (descr : Option String) : ZodType
  | enum (values : List String) (descr : Option String) : ZodType
  | array (elem : ZodType) (minLength maxLength : Option Nat) (descr : Option String) : ZodType
  | object (shape : ZodShape) : ZodType
  | optional (inner : ZodType) : ZodType
  | default (inner : ZodType) (defaultValue : JsonValue) : ZodType
  | unknown (descr : Option String) : ZodType

/-- A declared shape: the plain `{key: zodType}` object the adapter's
registration APIs receive, as an insertion-ordered list of fields. -/
inductive ZodShape : Type where
  | nil : ZodShape
  | cons (key : String) (t : ZodType) (rest : ZodShape) : ZodShape
end

/-- `isZodOptional` from `src/schema-utils.mjs`:
`zodType instanceof z.ZodOptional || zodType instanceof z.ZodDefault`. -/
def isZodOptional : ZodType → Bool
  | .optional _ => true
  | .default _ _ => true
  | _ => false

/-- `hasZodDefault` from `src/schema-utils.mjs`:
`zodType instanceof z.ZodDefault`. -/
def hasZodDefault : ZodType → Bool
  | .default _ _ => true
  | _ => false

/-- Semantics of one string check (the format recognisers abstract the zod
library's regular expressions; no claim depends on their exact languages). -/
def strCheckOk : StrCheck → String → Bool
  | .min n, s => n ≤ s.length
  | .max n, s => s.length ≤ n
  | .email, s => s.contains '@'
  | .url, s => strIncludes s "://"
  | .uuid, s => s.length = 36

/-- Error message for a failing string check. -/
def strCheckMsg : StrCheck → String
  | .min _ => "String must contain at least the declared number of characters"
  | .max _ => "String must contain at most the declared number of characters"
  | .email => "Invalid email"
  | .url => "Invalid url"
  | .uuid => "Invalid uuid"

/-- Semantics of one number check.  Numbers are modelled as integers, so the
`int` check always holds; the claims about it concern only translation. -/
def numCheckOk : NumCheck → Int → Bool
  | .min v, n => v ≤ n
  | .max v, n => n ≤ v
  | .int, _ => true

/-- Error message for a failing number check. -/
def numCheckMsg : NumCheck → String
  | .min _ => "Number must be greater than or equal to the declared minimum"
  | .max _ => "Number must be less than or equal to the declared maximum"
  | .int => "Expected integer, received float"

mutual
/-- `schema.parse(v)` of the zod library for the modelled schema classes:
returns the parsed value or throws (models the `ZodError`'s message as a
plain string).  `undefined` input on a required schema yields `Required`;
a `ZodDefault` wrapper substitutes its default for `undefined` and parses
it with the inner schema; a `ZodOptional` wrapper passes `undefined`
through.  Objects strip undeclared keys. -/
def ZodType.parse : ZodType → JsonValue → Except String JsonValue
  | .optional inner, v =>
    if v.isUndef then .ok .undef else inner.parse v
  | .default inner d, v =>
    if v.isUndef then inner.parse d else inner.parse v
  | .string checks _, v =>
    match v with
    | .str s =>
      match checks.find? (fun c => !(strCheckOk c s)) with
      | none => .ok (.str s)
      | some c => .error (strCheckMsg c)
    | .undef => .error "Required"
    | w => .error ("Expected string, received " ++ w.typeName)
  | .number checks _, v =>
    match v with
    | .num n =>
      match checks.find? (fun c => !(numCheckOk c n)) with
      | none => .ok (.num n)
      | some c => .error (numCheckMsg c)
    | .undef => .error "Required"
    | w => .error ("Expected number, received " ++ w.typeName)
  | .boolean _, v =>
    match v with
    | .bool b => .ok (.bool b)
    | .undef => .error "Required"
    | w => .error ("Expected boolean, received " ++ w.typeName)
  | .enum values _, v =>
    match v with
    | .str s =>
      if values.contains s then .ok (.str s)
      else .error ("Invalid enum value: " ++ s)
    | .undef => .error "Required"
    | w => .error ("Expected string, received " ++ w.typeName)
  | .array elem minL maxL _, v =>
    match v with
    | .arr xs =>
      if (match minL with | some n => decide (n ≤ xs.length) | none => true) then
        if (match maxL with | some n => decide (xs.length ≤ n) | none => true) then
          match parseElems elem xs with
          | .ok ys => .ok (.arr ys)
          | .error e => .error e
        else .error "Array must contain at most the declared number of elements"
      else .error "Array must contain at least the declared number of elements"
    | .undef => .error "Required"
    | w => .error ("Expected array, received " ++ w.typeName)
  | .object shape, v =>
    match v with
    | .obj fields =>
      match parseShape shape fields with
      | .ok fs => .ok (.obj fs)
      | .error e => .error e
    | .undef => .error "Required"
    | w => .error ("Expected object, received " ++ w.typeName)
  | .unknown _, v => .ok v

/-- Element-wise parse of an array's items. -/
def parseElems (elem : ZodType) : List JsonValue → Except String (List JsonValue)
  | [] => .ok []
  | x :: xs =>
    match elem.parse x, parseElems elem xs with
    | .ok y, .ok ys => .ok (y :: ys)
    | .error e, _ => .error e
    | _, .error e => .error e

/-- Field-wise parse of a nested object against its declared shape
(undeclared keys stripped, absent optional fields omitted). -/
def parseShape : ZodShape → List (String × JsonValue) → Except String (List (String × JsonValue))
  | .nil, _ => .ok []
  | .cons k t rest, fields =>
    match t.parse (objGet fields k), parseShape rest fields with
    | .ok v, .ok vs => .ok (if v.isUndef then vs else (k, v) :: vs)
    | .error e, _ => .error e
    | _, .error e => .error e
end

/-- The `if (zodType.description) schema.description = ...` tail of each
converter branch: attach the description when present. -/
def withDescription (schema : List (String × JsonValue)) : Option String → List (String × JsonValue)
  | some d => mapSet schema "description" (.str d)
  | none => schema

/-- One iteration of the `ZodString` branch's `switch` over `_def.checks`:
`min`/`max` write the length bounds, the format tags write `format`
(note the source maps the `url` tag to JSON-Schema `format: "uri"`). -/
def stringCheckStep (sch : List (String × JsonValue)) (check : StrCheck) : List (String × JsonValue) :=
  match check with
  | .min n => mapSet sch "minLength" (.num n)
  | .max n => mapSet sch "maxLength" (.num n)
  | .email => mapSet sch "format" (.str "email")
  | .url => mapSet sch "format" (.str "uri")
  | .uuid => mapSet sch "format" (.str "uuid")

/-- One iteration of the `ZodNumber` branch's `switch`: `min`/`max` write
the bounds, an `int` check rewrites `type` to `integer`. -/
def numberCheckStep (sch : List (String × JsonValue)) (check : NumCheck) : List (String × JsonValue) :=
  match check with
  | .min v => mapSet sch "minimum" (.num v)
  | .max v => mapSet sch "maximum" (.num v)
  | .int => mapSet sch "type" (.str "integer")

mutual
/-- `convertZodTypeToJsonSchema` from `src/schema-utils.mjs`: one Zod type
to a JSON-Schema property, built as the JavaScript object the source
mutates field by field (`mapSet` is property assignment). -/
def convertZodTypeToJsonSchema : ZodType → JsonValue
  | .optional inner => convertZodTypeToJsonSchema inner
  | .default inner d =>
    match convertZodTypeToJsonSchema inner with
    | .obj fields => .obj (mapSet fields "default" d)
    | v => v
  | .string checks descr =>
    let schema := checks.foldl stringCheckStep [("type", JsonValue.str "string")]
    .obj (withDescription schema descr)
  | .number checks descr =>
    let schema := checks.foldl numberCheckStep [("type", JsonValue.str "number")]
    .obj (withDescription schema descr)
  | .boolean descr =>
    .obj (withDescription [("type", JsonValue.str "boolean")] descr)
  | .enum values descr =>
    .obj (withDescription
      [("type", JsonValue.str "string"), ("enum", .arr (values.map JsonValue.str))] descr)
  | .array elem minL maxL descr =>
    let schema := [("type", JsonValue.str "array"), ("items", convertZodTypeToJsonSchema elem)]
    let schema := match minL with
      | some n => mapSet schema "minItems" (.num n)
      | none => schema
    let schema := match maxL with
      | some n => mapSet schema "maxItems" (.num n)
      | none => schema
    .obj (withDescription schema descr)
  | .object shape => zodToJsonSchema shape
  | .unknown descr =>
    .obj [("type", JsonValue.str "string"),
          ("description", .str (match descr with | some d => d | none => "Unknown type"))]

/-- `zodToJsonSchema` from `src/schema-utils.mjs`: a declared shape to the
top-level `{type: "object", properties, required}` document; a key is
required iff `!isZodOptional` holds for its schema. -/
def zodToJsonSchema (zodSchema : ZodShape) : JsonValue :=
  .obj [("type", JsonValue.str "object"),
        ("properties", .obj (shapeProperties zodSchema)),
        ("required", .arr ((shapeRequired zodSchema).map JsonValue.str))]

/-- The `properties` accumulation loop of `zodToJsonSchema`. -/
def shapeProperties : ZodShape → List (String × JsonValue)
  | .nil => []
  | .cons key schema rest => (key, convertZodTypeToJsonSchema schema) :: shapeProperties rest

/-- The `required` accumulation loop of `zodToJsonSchema`. -/
def shapeRequired : ZodShape → List String
  | .nil => []
  | .cons key schema rest =>
    if isZodOptional schema then shapeRequired rest else key :: shapeRequired rest
end

/-- One entry of a thrown `ZodError`'s `errors` array. -/
structure ZodIssue : Type where
  code : String
  path : List String
  message : String
deriving Repr, DecidableEq

/-- `validateWithZod` from `src/schema-utils.mjs`: walk the declared fields
in order; skip an absent optional field (materialising its default when it
has one); otherwise `schema.parse` the supplied value; the first failure
throws a single-entry `ZodError` naming that field's path. -/
def validateWithZod : ZodShape → List (String × JsonValue) →
    Except (List ZodIssue) (List (String × JsonValue))
  | .nil, _ => .ok []
  | .cons key schema rest, args =>
    if (objGet args key).isUndef && isZodOptional schema then
      if hasZodDefault schema then
        match schema.parse .undef with
        | .error m => .error [⟨"custom", [key], m⟩]
        | .ok val =>
          match validateWithZod rest args with
          | .error e => .error e
          | .ok vs => .ok ((key, val) :: vs)
      else validateWithZod rest args
    else
      match schema.parse (objGet args key) with
      | .error m => .error [⟨"custom", [key], m⟩]
      | .ok val =>
        match validateWithZod rest args with
        | .error e => .error e
        | .ok vs => .ok ((key, val) :: vs)

/-- A tool/prompt handler: the user-supplied async function, modelled as a
pure function from the (validated) argument object to a result value or a
thrown exception's message. -/
def Handler : Type := List (String × JsonValue) → Except String JsonValue

/-- `error.errors.map(e => path.join('.') + ': ' + e.message).join(', ')`
from the `ZodError` catch in `src/mcp-server.mjs`. -/
def zodIssuesText (issues : List ZodIssue) : String :=
  String.intercalate ", "
    (issues.map (fun e => String.intercalate "." e.path ++ ": " ++ e.message))

/-- The `validatedHandler` wrapper built by `MCPServer.tool` and
`MCPServer.prompt`: run `validateWithZod` first; a `ZodError` becomes a
thrown `Validation error: ...`; only on success is the raw handler run
(whose own exceptions pass through unchanged). -/
def mkValidatedHandler (inputSchema : ZodShape) (handler : Handler) : Handler :=
  fun args =>
    match validateWithZod inputSchema args with
    | .error issues => .error ("Validation error: " ++ zodIssuesText issues)
    | .ok validatedArgs => handler validatedArgs

/-- The `config` object assembled in the `MCPServer` constructor. -/
structure ServerConfig : Type where
  name : String
  version : String
  description : String
  protocolVersion : String
deriving Repr, DecidableEq

/-- An entry of the `tools` map: `{name, description, inputSchema, handler}`
where `handler` is the validating wrapper and `inputSchema` the translated
JSON Schema. -/
structure ToolEntry : Type where
  name : String
  description : String
  inputSchema : JsonValue
  handler : Handler

/-- An entry of the `resources` map: `{name, uri, description, handler}`. -/
structure ResourceEntry : Type where
  name : String
  uri : String
  description : String
  handler : String → Except String JsonValue

/-- An entry of the `prompts` map: `{name, description, arguments, handler}`
with `arguments` the derived per-field descriptor list. -/
structure PromptEntry : Type where
  name : String
  description : String
  args : List JsonValue
  handler : Handler

/-- The `MCPServer` state: configuration plus the three registries
(JavaScript `Map`s in insertion order). -/
structure MCPServer : Type where
  config : ServerConfig
  tools : List (String × ToolEntry)
  resources : List (String × ResourceEntry)
  prompts : List (String × PromptEntry)

/-- The constructor's per-field `config.x || defaultValue` defaulting. -/
def MCPServer.new (name version description protocolVersion : Option String) : MCPServer :=
  { config :=
      { name := (name.getD "MCP Server")
      , version := (version.getD "1.0.0")
      , description := (description.getD "MCP Server powered by AWS Lambda")
      , protocolVersion := (protocolVersion.getD "2025-03-26") }
  , tools := []
  , resources := []
  , prompts := [] }

/-- `MCPServer.tool`: translate the schema, wrap the handler with
validation, and `Map.set` the entry (re-registration replaces).
`handlerDescription` models the optional `handler.description` property;
absent, the description defaults to `Tool: <name>`. -/
def MCPServer.tool (s : MCPServer) (name : String) (inputSchema : ZodShape)
    (handler : Handler) (handlerDescription : Option String) : MCPServer :=
  let jsonSchema := zodToJsonSchema inputSchema
  let validatedHandler := mkValidatedHandler inputSchema handler
  let entry : ToolEntry :=
    { name := name
    , description := handlerDescription.getD ("Tool: " ++ name)
    , inputSchema := jsonSchema
    , handler := validatedHandler }
  { s with tools := mapSet s.tools name entry }

/-- `MCPServer.resource`: store the raw handler under the name key. -/
def MCPServer.resource (s : MCPServer) (name uri : String)
    (handler : String → Except String JsonValue) (handlerDescription : Option String) : MCPServer :=
  let entry : ResourceEntry :=
    { name := name
    , uri := uri
    , description := handlerDescription.getD ("Resource: " ++ name)
    , handler := handler }
  { s with resources := mapSet s.resources name entry }

/-- `zodType.description`: the description property carried by the schema
object itself (wrappers carry none of their own). -/
def ZodType.descriptionOf : ZodType → Option String
  | .string _ d => d
  | .number _ d => d
  | .boolean d => d
  | .enum _ d => d
  | .array _ _ _ d => d
  | .unknown d => d
  | .object _ => none
  | .optional _ => none
  | .default _ _ => none

/-- The `arguments` list built by `MCPServer.prompt` from
`Object.entries(inputSchema)`: `{name, description, required}` per field,
`required` being `!isZodOptional(schema)`. -/
def promptArguments : ZodShape → List JsonValue
  | .nil => []
  | .cons key schema rest =>
    .obj [("name", .str key),
          ("description", .str ((ZodType.descriptionOf schema).getD (key ++ " parameter"))),
          ("required", .bool (!(isZodOptional schema)))] :: promptArguments rest

/-- `MCPServer.prompt`: derive the argument descriptors and wrap the handler
with validation, as `src/mcp-server.mjs` does. -/
def MCPServer.prompt (s : MCPServer) (name : String) (inputSchema : ZodShape)
    (handler : Handler) (handlerDescription : Option String) : MCPServer :=
  let validatedHandler := mkValidatedHandler inputSchema handler
  let entry : PromptEntry :=
    { name := name
    , description := handlerDescription.getD ("Prompt: " ++ name)
    , args := promptArguments inputSchema
    , handler := validatedHandler }
  { s with prompts := mapSet s.prompts name entry }


/-- The `params` object of an MCP request (fields the handlers read). -/
structure RequestParams : Type where
  name : Option String
  uri : Option String
  arguments : Option (List (String × JsonValue))
  protocolVersion : Option String

/-- An empty `params` object. -/
def RequestParams.empty : RequestParams :=
  { name := none, uri := none, arguments := none, protocolVersion := none }

/-- JavaScript truthiness of `params?.name` / `params?.uri`: the optional
chain is `undefined` when `params` is absent, and a present empty string is
falsy. -/
def optChainStr (params : Option RequestParams) (field : RequestParams → Option String) : Option String :=
  match params with
  | none => none
  | some p =>
    match field p with
    | none => none
    | some s => if s = "" then none else some s

/-- `params.arguments || {}`. -/
def argumentsOrEmpty (params : Option RequestParams) : List (String × JsonValue) :=
  match params with
  | none => []
  | some p => p.arguments.getD []

/-- A decoded MCP request as `handleRequest` sees it. -/
structure MCPRequest : Type where
  method : String
  params : Option RequestParams

/-- `handleInitialize` from `src/mcp-server.mjs`: ignores the request's
params entirely and returns the configured protocol version, the three
capability flags unconditionally, the server info and the instructions. -/
def MCPServer.handleInitialize (s : MCPServer) : JsonValue :=
  .obj [("protocolVersion", .str s.config.protocolVersion),
        ("capabilities", .obj
          [("tools", .obj [("listChanged", .bool true)]),
           ("resources", .obj [("listChanged", .bool true)]),
           ("prompts", .obj [("listChanged", .bool true)])]),
        ("serverInfo", .obj
          [("name", .str s.config.name), ("version", .str s.config.version)]),
        ("instructions", .str s.config.description)]

/-- `handleToolsList`: project each registered tool to
`{name, description, inputSchema}`. -/
def MCPServer.handleToolsList (s : MCPServer) : JsonValue :=
  .obj [("tools", .arr (s.tools.map (fun kv =>
    .obj [("name", .str kv.2.name),
          ("description", .str kv.2.description),
          ("inputSchema", kv.2.inputSchema)])))]

/-- The `{content: [{type: 'text', text: 'Error: ...'}], isError: true}`
result `handleToolsCall` builds from a caught handler exception. -/
def toolErrorResult (message : String) : JsonValue :=
  .obj [("content", .arr [.obj [("type", .str "text"), ("text", .str ("Error: " ++ message))]]),
        ("isError", .bool true)]

/-- `handleToolsCall` from `src/mcp-server.mjs`: missing/empty name and
unknown tool throw; a registered tool's (validating) handler is invoked
with `params.arguments || {}` and any exception it throws is caught and
converted into a normal result carrying `isError: true`. -/
def MCPServer.handleToolsCall (s : MCPServer) (params : Option RequestParams) :
    Except String JsonValue :=
  match optChainStr params RequestParams.name with
  | none => .error "Tool name is required"
  | some name =>
    match mapGet s.tools name with
    | none => .error ("Tool not found: " ++ name)
    | some tool =>
      match tool.handler (argumentsOrEmpty params) with
      | .ok result => .ok result
      | .error e => .ok (toolErrorResult e)

/-- `handleResourcesList`: project each resource to `{uri, name, description}`. -/
def MCPServer.handleResourcesList (s : MCPServer) : JsonValue :=
  .obj [("resources", .arr (s.resources.map (fun kv =>
    .obj [("uri", .str kv.2.uri),
          ("name", .str kv.2.name),
          ("description", .str kv.2.description)])))]

/-- `handleResourcesRead` from `src/mcp-server.mjs`: missing/empty uri
throws; lookup is by `uri` over the registry's values in insertion order;
not found throws; a handler exception is re-thrown as
`Resource read error: ...` (a protocol-level error, unlike tools/call). -/
def MCPServer.handleResourcesRead (s : MCPServer) (params : Option RequestParams) :
    Except String JsonValue :=
  match optChainStr params RequestParams.uri with
  | none => .error "Resource URI is required"
  | some uri =>
    match (s.resources.map Prod.snd).find? (fun r => r.uri == uri) with
    | none => .error ("Resource not found: " ++ uri)
    | some resource =>
      match resource.handler uri with
      | .ok result => .ok result
      | .error e => .error ("Resource read error: " ++ e)

/-- `handlePromptsList`: project each prompt to
`{name, description, arguments}`. -/
def MCPServer.handlePromptsList (s : MCPServer) : JsonValue :=
  .obj [("prompts", .arr (s.prompts.map (fun kv =>
    .obj [("name", .str kv.2.name),
          ("description", .str kv.2.description),
          ("arguments", .arr kv.2.args)])))]

/-- `handlePromptsGet` from `src/mcp-server.mjs`: missing/empty name and
unknown prompt throw; the (validating) handler runs on
`params.arguments || {}` and its exceptions are re-thrown as
`Prompt execution error: ...`. -/
def MCPServer.handlePromptsGet (s : MCPServer) (params : Option RequestParams) :
    Except String JsonValue :=
  match optChainStr params RequestParams.name with
  | none => .error "Prompt name is required"
  | some name =>
    match mapGet s.prompts name with
    | none => .error ("Prompt not found: " ++ name)
    | some prompt =>
      match prompt.handler (argumentsOrEmpty params) with
      | .ok result => .ok result
      | .error e => .error ("Prompt execution error: " ++ e)

/-- `handleRequest` from `src/mcp-server.mjs`: the eight-way dispatch on
`request.method`; `notifications/initialized` answers `null` (`none`);
any other method throws `Method not found: <method>`. -/
def MCPServer.handleRequest (s : MCPServer) (request : MCPRequest) :
    Except String (Option JsonValue) :=
  if request.method = "initialize" then .ok (some s.handleInitialize)
  else if request.method = "notifications/initialized" then .ok none
  else if request.method = "tools/list" then .ok (some s.handleToolsList)
  else if request.method = "tools/call" then
    (s.handleToolsCall request.params).map some
  else if request.method = "resources/list" then .ok (some s.handleResourcesList)
  else if request.method = "resources/read" then
    (s.handleResourcesRead request.params).map some
  else if request.method = "prompts/list" then .ok (some s.handlePromptsList)
  else if request.method = "prompts/get" then
    (s.handlePromptsGet request.params).map some
  else .error ("Method not found: " ++ request.method)

/-- An HTTP response as the Lambda adapter builds it; the body is kept as
the `JsonValue` handed to `JSON.stringify` (a `.str` for raw-string
bodies). -/
structure HttpResponse : Type where
  statusCode : Nat
  headers : List (String × String)
  body : JsonValue
deriving Repr

/-- `createResponse` from `src/lambda-adapter.mjs`. -/
def createResponse (body : JsonValue) (statusCode : Nat) (headers : List (String × String)) :
    HttpResponse :=
  { statusCode := statusCode
  , headers := ("Content-Type", "application/json") :: headers
  , body := body }

/-- `createErrorResponse` from `src/lambda-adapter.mjs`: a JSON-RPC error
envelope `{jsonrpc, error: {code, message}, id}`. -/
def createErrorResponse (statusCode : Nat) (code : Int) (message : String)
    (headers : List (String × String)) (id : JsonValue) : HttpResponse :=
  createResponse
    (.obj [("jsonrpc", .str "2.0"),
           ("error", .obj [("code", .num code), ("message", .str message)]),
           ("id", id)])
    statusCode headers

/-- A decoded JSON-RPC message as `JSON.parse` would deliver it. -/
structure JsonRpcMessage : Type where
  jsonrpc : Option String
  method : Option String
  params : Option RequestParams
  id : JsonValue

/-- The error-code selection of `handleMCPRequest`'s catch block: substring
tests on the thrown message choose `-32601`, `-32602` or `-32603`. -/
def errorCodeFor (message : String) : Int :=
  if strIncludes message "Method not found" then -32601
  else if strIncludes message "not found" || strIncludes message "required" then -32602
  else -32603

/-- `!jsonRpcMessage.jsonrpc || jsonRpcMessage.jsonrpc !== '2.0'`. -/
def jsonrpcFieldInvalid (msg : JsonRpcMessage) : Bool :=
  match msg.jsonrpc with
  | some v => v ≠ "2.0"
  | none => true

/-- `!jsonRpcMessage.method` (absent or empty string). -/
def methodFieldMissing (msg : JsonRpcMessage) : Bool :=
  match msg.method with
  | some m => m = ""
  | none => true

/-- `handleMCPRequest` from `src/lambda-adapter.mjs`, from the decoded
message onward.  `contentTypeJson` stands for
`contentType.includes('application/json')` on the inbound headers and
`parsedBody` for the `JSON.parse` outcome (`none` = parse threw); the raw
string handling itself belongs to the platform boundary.  A dispatch
exception becomes an HTTP 500 whose JSON-RPC code `errorCodeFor` picks
from the message text. -/
def handleMCPRequest (mcpServer : MCPServer) (contentTypeJson : Bool)
    (parsedBody : Option JsonRpcMessage) (corsHeaders : List (String × String)) :
    HttpResponse :=
  if !contentTypeJson then
    createErrorResponse 400 (-32700) "Parse error: Content-Type must be application/json" corsHeaders .null
  else
    match parsedBody with
    | none => createErrorResponse 400 (-32700) "Parse error: Invalid JSON" corsHeaders .null
    | some msg =>
      if jsonrpcFieldInvalid msg then
        createErrorResponse 400 (-32600) "Invalid Request: missing jsonrpc field" corsHeaders msg.id
      else if methodFieldMissing msg then
        createErrorResponse 400 (-32600) "Invalid Request: missing method field" corsHeaders msg.id
      else
        match mcpServer.handleRequest { method := msg.method.getD "", params := msg.params } with
        | .ok none => createResponse (.str "") 204 corsHeaders
        | .ok (some result) =>
          createResponse
            (.obj [("jsonrpc", .str "2.0"), ("result", result), ("id", msg.id)])
            200 corsHeaders
        | .error e => createErrorResponse 500 (errorCodeFor e) e corsHeaders msg.id

/-- The JSON-RPC error code of a response, read back out of its body. -/
def responseErrorCode (r : HttpResponse) : Option JsonValue :=
  match r.body.getField "error" with
  | some errObj => errObj.getField "code"
  | none => none

/-! ## Helper lemmas -/

theorem mapGet_mapSet_self {α : Type} (m : List (String × α)) (k : String) (v : α) :
    mapGet (mapSet m k v) k = some v := by
  induction m with
  | nil => simp [mapSet, mapGet]
  | cons kv rest ih =>
    obtain ⟨k', v'⟩ := kv
    by_cases h : k' = k
    · simp [mapSet, mapGet, h]
    · simp [mapSet, mapGet, h, ih]

theorem mapGet_mapSet_ne {α : Type} (m : List (String × α)) (k k' : String) (v : α)
    (h : k' ≠ k) : mapGet (mapSet m k v) k' = mapGet m k' := by
  have hk : ¬ k = k' := fun hh => h hh.symm
  induction m with
  | nil => simp [mapSet, mapGet, hk]
  | cons kv rest ih =>
    obtain ⟨k₀, v₀⟩ := kv
    by_cases h₀ : k₀ = k
    · subst h₀
      simp [mapSet, mapGet, hk]
    · simp [mapSet, mapGet, h₀, ih]

theorem strIncludes_of_leading (pre m pat : String) (h : ∃ t, pat.toList ++ t = pre.toList) :
    strIncludes (pre ++ m) pat = true := by
  apply decide_eq_true
  obtain ⟨t, ht⟩ := h
  refine ⟨[], t ++ m.toList, ?_⟩
  have hdata : (pre ++ m).toList = pre.toList ++ m.toList := by
    simp [String.toList, String.data_append]
  rw [hdata, ← ht]
  simp

theorem errorCodeFor_method_not_found (m : String) :
    errorCodeFor ("Method not found: " ++ m) = -32601 := by
  unfold errorCodeFor
  rw [strIncludes_of_leading "Method not found: " m "Method not found" ⟨": ".toList, by decide⟩]
  simp

/-- Whether a key appears in a declared shape. -/
def ZodShape.hasKey : ZodShape → String → Bool
  | .nil, _ => false
  | .cons k _ rest, key => k == key || rest.hasKey key

/-- Whether a number schema's check list carries an `int` check. -/
def hasIntCheck : List NumCheck → Bool
  | [] => false
  | .int :: _ => true
  | _ :: rest => hasIntCheck rest

theorem stringCheckStep_preserves_type (sch : List (String × JsonValue)) (c : StrCheck) :
    mapGet (stringCheckStep sch c) "type" = mapGet sch "type" := by
  cases c <;> simp [stringCheckStep] <;> apply mapGet_mapSet_ne <;> decide

theorem foldl_stringCheckStep_type (checks : List StrCheck) (sch : List (String × JsonValue)) :
    mapGet (checks.foldl stringCheckStep sch) "type" = mapGet sch "type" := by
  induction checks generalizing sch with
  | nil => rfl
  | cons c rest ih => rw [List.foldl_cons, ih, stringCheckStep_preserves_type]

theorem foldl_numberCheckStep_type (checks : List NumCheck) (sch : List (String × JsonValue)) :
    mapGet (checks.foldl numberCheckStep sch) "type" =
      (if hasIntCheck checks then some (JsonValue.str "integer") else mapGet sch "type") := by
  induction checks generalizing sch with
  | nil => rfl
  | cons c rest ih =>
    cases c with
    | min v =>
      rw [List.foldl_cons]
      show mapGet (rest.foldl numberCheckStep (mapSet sch "minimum" (.num v))) "type" = _
      rw [ih, mapGet_mapSet_ne sch "minimum" "type" (.num v) (by decide)]
      rfl
    | max v =>
      rw [List.foldl_cons]
      show mapGet (rest.foldl numberCheckStep (mapSet sch "maximum" (.num v))) "type" = _
      rw [ih, mapGet_mapSet_ne sch "maximum" "type" (.num v) (by decide)]
      rfl
    | int =>
      rw [List.foldl_cons]
      show mapGet (rest.foldl numberCheckStep (mapSet sch "type" (.str "integer"))) "type" = _
      rw [ih, mapGet_mapSet_self]
      show _ = some (JsonValue.str "integer")
      split <;> rfl

theorem withDescription_preserves_type (sch : List (String × JsonValue)) (d : Option String) :
    mapGet (withDescription sch d) "type" = mapGet sch "type" := by
  cases d with
  | none => rfl
  | some dd => exact mapGet_mapSet_ne sch "description" "type" (.str dd) (by decide)

/-! ## Claims -/

/-- C1: for every registered tool whose name is supplied in a `tools/call`
request, if the tool's (validating) handler throws, `handleRequest`
returns normally (`ok`, never a thrown error) with a result carrying
`isError: true` and the error message inside its `content`; no
protocol-level error envelope is produced on this path. -/
theorem tools_call_fault_isolation (s : MCPServer) (params : Option RequestParams)
    (name : String) (tool : ToolEntry) (e : String)
    (hname : optChainStr params RequestParams.name = some name)
    (htool : mapGet s.tools name = some tool)
    (hthrow : tool.handler (argumentsOrEmpty params) = .error e) :
    s.handleRequest { method := "tools/call", params := params } =
      .ok (some (toolErrorResult e)) := by
  simp [MCPServer.handleRequest, MCPServer.handleToolsCall, hname, htool, hthrow, Except.map]

/-- A server with a single registered tool whose raw handler always throws
`kaboom` (empty declared shape, so validation always succeeds). -/
def boomServer : MCPServer :=
  (MCPServer.new none none none none).tool "boom" .nil (fun _ => .error "kaboom") none

/-- Concrete `params` naming the `boom` tool. -/
def boomParams : RequestParams :=
  { name := some "boom", uri := none, arguments := none, protocolVersion := none }

theorem tools_call_fault_isolation_witness :
    boomServer.handleRequest { method := "tools/call", params := some boomParams } =
      .ok (some (toolErrorResult "kaboom")) :=
  tools_call_fault_isolation boomServer (some boomParams) "boom"
    { name := "boom", description := "Tool: boom", inputSchema := zodToJsonSchema .nil
    , handler := mkValidatedHandler .nil (fun _ => .error "kaboom") }
    "kaboom" rfl rfl rfl

/-- C2: `resources/read` is asymmetric with `tools/call`: a missing `uri`
parameter, an unmatched `uri`, and a throwing data-source handler all
surface as thrown errors from `handleRequest` (protocol-level errors),
never as an `ok` result payload. -/
theorem resources_read_error_propagation (s : MCPServer) (params : Option RequestParams) :
    (optChainStr params RequestParams.uri = none →
      s.handleRequest { method := "resources/read", params := params } =
        .error "Resource URI is required") ∧
    (∀ uri, optChainStr params RequestParams.uri = some uri →
      (s.resources.map Prod.snd).find? (fun r => r.uri == uri) = none →
      s.handleRequest { method := "resources/read", params := params } =
        .error ("Resource not found: " ++ uri)) ∧
    (∀ uri r e, optChainStr params RequestParams.uri = some uri →
      (s.resources.map Prod.snd).find? (fun r => r.uri == uri) = some r →
      r.handler uri = .error e →
      s.handleRequest { method := "resources/read", params := params } =
        .error ("Resource read error: " ++ e)) := by
  refine ⟨fun h => ?_, fun uri h hfind => ?_, fun uri r e h hfind hthrow => ?_⟩
  · simp [MCPServer.handleRequest, MCPServer.handleResourcesRead, h, Except.map]
  · simp [MCPServer.handleRequest, MCPServer.handleResourcesRead, h, hfind, Except.map]
  · simp [MCPServer.handleRequest, MCPServer.handleResourcesRead, h, hfind, hthrow, Except.map]

/-- A server with one resource at `cfg://app` whose handler always throws
`token required`. -/
def readFailServer : MCPServer :=
  (MCPServer.new none none none none).resource "config" "cfg://app"
    (fun _ => .error "token required") none

/-- Concrete `params` with the registered uri. -/
def cfgParams : RequestParams :=
  { name := none, uri := some "cfg://app", arguments := none, protocolVersion := none }

theorem resources_read_error_propagation_witness :
    (readFailServer.handleRequest { method := "resources/read", params := none } =
      .error "Resource URI is required") ∧
    (readFailServer.handleRequest { method := "resources/read", params := some cfgParams } =
      .error ("Resource read error: " ++ "token required")) :=
  ⟨(resources_read_error_propagation readFailServer none).1 rfl,
   (resources_read_error_propagation readFailServer (some cfgParams)).2.2 "cfg://app"
     { name := "config", uri := "cfg://app", description := "Resource: config"
     , handler := fun _ => .error "token required" }
     "token required" rfl rfl rfl⟩

/-- A server constructed with an all-default configuration
(`protocolVersion` defaults to `2025-03-26`). -/
def defaultServer : MCPServer := MCPServer.new none none none none

/-- The fixed protocol-version allow-list of the bundled build
(`supportedVersions` in `dist/index.mjs`); no such list appears in
`src/mcp-server.mjs`. -/
def supportedVersions : List String := ["2024-11-05", "2025-03-26"]

/-- C3 counterexample: a client requesting `2024-11-05` — a member of the
supported allow-list, different from the server default — still receives
the server default `2025-03-26`: `handleInitialize` ignores the request's
`protocolVersion` entirely, so the "echo a supported requested version"
half of the claim is false (only the "never rejected" half holds). -/
theorem initialize_version_negotiation_counterexample :
    "2024-11-05" ∈ supportedVersions ∧
    defaultServer.handleRequest
      { method := "initialize"
      , params := some { name := none, uri := none, arguments := none
                       , protocolVersion := some "2024-11-05" } } =
      .ok (some defaultServer.handleInitialize) ∧
    defaultServer.handleInitialize.getField "protocolVersion" =
      some (.str "2025-03-26") ∧
    ("2024-11-05" : String) ≠ "2025-03-26" :=
  ⟨by decide, rfl, rfl, by decide⟩

/-- C3 amended: for every initialize request the handshake is never
rejected (`handleRequest` always returns `ok`), and the returned
`protocolVersion` always equals the configured server default, whatever
protocol version the client requested. -/
theorem initialize_version_always_default (s : MCPServer) (params : Option RequestParams) :
    s.handleRequest { method := "initialize", params := params } =
      .ok (some s.handleInitialize) ∧
    s.handleInitialize.getField "protocolVersion" =
      some (.str s.config.protocolVersion) :=
  ⟨rfl, rfl⟩

/-- C4 counterexample: a freshly constructed server has all three
registries empty, yet its initialize result advertises the `tools`
capability (and likewise the other two) — refuting "a capability flag is
advertised iff its registry is non-empty". -/
theorem initialize_capabilities_counterexample :
    defaultServer.tools = [] ∧
    (defaultServer.handleInitialize.getField "capabilities").bind
      (fun c => c.getField "tools") = some (.obj [("listChanged", .bool true)]) :=
  ⟨rfl, rfl⟩

/-- C4 amended: the capabilities object of every initialize result is the
same fixed object advertising all three capability flags, regardless of
the registries' contents. -/
theorem initialize_capabilities_unconditional (s : MCPServer) (params : Option RequestParams) :
    s.handleRequest { method := "initialize", params := params } =
      .ok (some s.handleInitialize) ∧
    s.handleInitialize.getField "capabilities" =
      some (.obj [("tools", .obj [("listChanged", .bool true)]),
                  ("resources", .obj [("listChanged", .bool true)]),
                  ("prompts", .obj [("listChanged", .bool true)])]) :=
  ⟨rfl, rfl⟩


theorem validateWithZod_keys_declared (shape : ZodShape) (args out : List (String × JsonValue))
    (h : validateWithZod shape args = .ok out) :
    ∀ k v, (k, v) ∈ out → shape.hasKey k = true :=
  match shape, h with
  | .nil, h => by
    intro k v hmem
    simp [validateWithZod] at h
    subst h
    simp at hmem
  | .cons key schema rest, h => by
    intro k v hmem
    cases hu : ((objGet args key).isUndef && isZodOptional schema) with
    | false =>
      cases hp : schema.parse (objGet args key) with
      | error m => simp [validateWithZod, hu, hp] at h
      | ok val =>
        cases hv : validateWithZod rest args with
        | error e2 => simp [validateWithZod, hu, hp, hv] at h
        | ok vs =>
          simp [validateWithZod, hu, hp, hv] at h
          subst h
          cases hmem with
          | head => simp [ZodShape.hasKey]
          | tail _ hmem2 =>
            simp [ZodShape.hasKey, validateWithZod_keys_declared rest args vs hv k v hmem2]
    | true =>
      cases hd : hasZodDefault schema with
      | false =>
        simp [validateWithZod, hu, hd] at h
        simp [ZodShape.hasKey, validateWithZod_keys_declared rest args out h k v hmem]
      | true =>
        cases hp : schema.parse .undef with
        | error m => simp [validateWithZod, hu, hd, hp] at h
        | ok val =>
          cases hv : validateWithZod rest args with
          | error e2 => simp [validateWithZod, hu, hd, hp, hv] at h
          | ok vs =>
            simp [validateWithZod, hu, hd, hp, hv] at h
            subst h
            cases hmem with
            | head => simp [ZodShape.hasKey]
            | tail _ hmem2 =>
              simp [ZodShape.hasKey, validateWithZod_keys_declared rest args vs hv k v hmem2]

/-- The two-field number shape of the claim's concrete instance. -/
def shapeAB : ZodShape :=
  .cons "a" (.number [] none) (.cons "b" (.number [] none) .nil)

/-- C5: a successful validation's output mentions only keys the shape
declares (so a caller-supplied key outside the shape is absent from the
output), and on the concrete instance — shape `{a, b}`, input
`{a: 1, b: 2, c: 3}` of correct types — the output is exactly `{a, b}`. -/
theorem validation_drops_unknown_fields :
    (∀ (shape : ZodShape) (args out : List (String × JsonValue)),
      validateWithZod shape args = .ok out →
      ∀ k v, (k, v) ∈ out → shape.hasKey k = true) ∧
    validateWithZod shapeAB [("a", .num 1), ("b", .num 2), ("c", .num 3)] =
      .ok [("a", .num 1), ("b", .num 2)] := by
  refine ⟨validateWithZod_keys_declared, ?_⟩
  simp [validateWithZod, shapeAB, ZodType.parse, objGet, mapGet, isZodOptional,
    JsonValue.isUndef]

theorem validation_drops_unknown_fields_witness :
    ZodShape.hasKey shapeAB "a" = true :=
  validation_drops_unknown_fields.1 shapeAB
    [("a", .num 1), ("b", .num 2), ("c", .num 3)]
    [("a", .num 1), ("b", .num 2)]
    validation_drops_unknown_fields.2 "a" (.num 1) (by simp)

/-- The `type` entry of the JSON-Schema property that translating a
one-field shape produces for that field. -/
def singleFieldPropType (name : String) (t : ZodType) : Option JsonValue :=
  (((zodToJsonSchema (.cons name t .nil)).getField "properties").bind
    (fun props => props.getField name)).bind (fun p => p.getField "type")

/-- C6: translating a one-field shape gives the JSON-Schema type matching
the field's kind — `string`/`number` (or `integer` when an `int` check is
present)/`boolean`/`string` for enums/`array`/`object` — and the
`required` list contains the field's name iff the field carries neither an
optional nor a default wrapper (`isZodOptional`). -/
theorem shape_translation_kinds :
    (∀ (name : String) (checks : List StrCheck) (d : Option String),
       singleFieldPropType name (.string checks d) = some (.str "string")) ∧
    (∀ (name : String) (checks : List NumCheck) (d : Option String),
       hasIntCheck checks = false →
       singleFieldPropType name (.number checks d) = some (.str "number")) ∧
    (∀ (name : String) (checks : List NumCheck) (d : Option String),
       hasIntCheck checks = true →
       singleFieldPropType name (.number checks d) = some (.str "integer")) ∧
    (∀ (name : String) (d : Option String),
       singleFieldPropType name (.boolean d) = some (.str "boolean")) ∧
    (∀ (name : String) (vs : List String) (d : Option String),
       singleFieldPropType name (.enum vs d) = some (.str "string")) ∧
    (∀ (name : String) (elem : ZodType) (mn mx : Option Nat) (d : Option String),
       singleFieldPropType name (.array elem mn mx d) = some (.str "array")) ∧
    (∀ (name : String) (shape : ZodShape),
       singleFieldPropType name (.object shape) = some (.str "object")) ∧
    (∀ (name : String) (t : ZodType),
       (zodToJsonSchema (.cons name t .nil)).getField "required" =
         some (.arr (if isZodOptional t then [] else [.str name]))) := by
  refine ⟨fun name checks d => ?_, fun name checks d h => ?_, fun name checks d h => ?_,
    fun name d => ?_, fun name vs d => ?_, fun name elem mn mx d => ?_,
    fun name shape => ?_, fun name t => ?_⟩
  · simp [singleFieldPropType, zodToJsonSchema, shapeProperties, JsonValue.getField, mapGet,
      convertZodTypeToJsonSchema, withDescription_preserves_type, foldl_stringCheckStep_type]
  · simp [singleFieldPropType, zodToJsonSchema, shapeProperties, JsonValue.getField, mapGet,
      convertZodTypeToJsonSchema, withDescription_preserves_type, foldl_numberCheckStep_type, h]
  · simp [singleFieldPropType, zodToJsonSchema, shapeProperties, JsonValue.getField, mapGet,
      convertZodTypeToJsonSchema, withDescription_preserves_type, foldl_numberCheckStep_type, h]
  · cases d <;>
      simp [singleFieldPropType, zodToJsonSchema, shapeProperties, JsonValue.getField, mapGet,
        convertZodTypeToJsonSchema, withDescription]
  · cases d <;>
      simp [singleFieldPropType, zodToJsonSchema, shapeProperties, JsonValue.getField, mapGet,
        convertZodTypeToJsonSchema, withDescription, mapSet]
  · cases mn <;> cases mx <;> cases d <;>
      simp [singleFieldPropType, zodToJsonSchema, shapeProperties, JsonValue.getField, mapGet,
        convertZodTypeToJsonSchema, withDescription, mapSet]
  · simp [singleFieldPropType, zodToJsonSchema, shapeProperties, JsonValue.getField, mapGet,
      convertZodTypeToJsonSchema]
  · cases ht : isZodOptional t <;>
      simp [zodToJsonSchema, shapeRequired, JsonValue.getField, mapGet, ht]

theorem shape_translation_kinds_witness :
    (hasIntCheck [NumCheck.int] = true ∧
      singleFieldPropType "n" (.number [.int] none) = some (.str "integer")) ∧
    (hasIntCheck [] = false ∧
      singleFieldPropType "n" (.number [] none) = some (.str "number")) :=
  ⟨⟨rfl, shape_translation_kinds.2.2.1 "n" [.int] none rfl⟩,
   ⟨rfl, shape_translation_kinds.2.1 "n" [] none rfl⟩⟩

/-- C7 counterexample: a string field tagged with the `url` format check
translates to `format: "uri"`, not `format: "url"` — the source's `url`
case writes the JSON-Schema name `uri`, so "format value equals the tag"
fails for the url tag. -/
theorem url_format_tag_counterexample :
    (convertZodTypeToJsonSchema (.string [.url] none)).getField "format" =
      some (.str "uri") ∧
    some (JsonValue.str "uri") ≠ some (JsonValue.str "url") := by
  constructor
  · simp [convertZodTypeToJsonSchema, withDescription, stringCheckStep, mapSet,
      JsonValue.getField, mapGet]
  · simp

/-- C7 amended: the recognized format tags translate to `format: "email"`,
`format: "uuid"`, and — for the `url` tag — `format: "uri"`. -/
theorem string_format_tags (d : Option String) :
    (convertZodTypeToJsonSchema (.string [.email] d)).getField "format" =
      some (.str "email") ∧
    (convertZodTypeToJsonSchema (.string [.uuid] d)).getField "format" =
      some (.str "uuid") ∧
    (convertZodTypeToJsonSchema (.string [.url] d)).getField "format" =
      some (.str "uri") := by
  refine ⟨?_, ?_, ?_⟩ <;> cases d <;>
    simp [convertZodTypeToJsonSchema, withDescription, stringCheckStep, mapSet,
      JsonValue.getField, mapGet]

/-- C8 counterexample: with shape `{a: number, b: number}` and arguments
`{a: "x", b: "y"}` both fields violate their constraints (the `b`-only
validation also fails), yet full validation reports a single
`{path: ["a"], ...}` entry — evaluation stops at the first failing field
instead of aggregating one entry per failing field. -/
theorem validation_no_aggregation_counterexample :
    validateWithZod shapeAB [("a", .str "x"), ("b", .str "y")] =
      .error [⟨"custom", ["a"], "Expected number, received string"⟩] ∧
    validateWithZod (.cons "b" (.number [] none) .nil) [("a", .str "x"), ("b", .str "y")] =
      .error [⟨"custom", ["b"], "Expected number, received string"⟩] := by
  constructor <;>
    simp [validateWithZod, shapeAB, ZodType.parse, objGet, mapGet, isZodOptional,
      JsonValue.isUndef, JsonValue.typeName]

theorem validateWithZod_error_single (shape : ZodShape) (args : List (String × JsonValue))
    (issues : List ZodIssue) (h : validateWithZod shape args = .error issues) :
    issues.length = 1 :=
  match shape, h with
  | .nil, h => by simp [validateWithZod] at h
  | .cons key schema rest, h => by
    cases hu : ((objGet args key).isUndef && isZodOptional schema) with
    | false =>
      cases hp : schema.parse (objGet args key) with
      | error m =>
        simp [validateWithZod, hu, hp] at h
        subst h
        rfl
      | ok val =>
        cases hv : validateWithZod rest args with
        | error e2 =>
          simp [validateWithZod, hu, hp, hv] at h
          subst h
          exact validateWithZod_error_single rest args e2 hv
        | ok vs => simp [validateWithZod, hu, hp, hv] at h
    | true =>
      cases hd : hasZodDefault schema with
      | false =>
        simp [validateWithZod, hu, hd] at h
        exact validateWithZod_error_single rest args issues h
      | true =>
        cases hp : schema.parse .undef with
        | error m =>
          simp [validateWithZod, hu, hd, hp] at h
          subst h
          rfl
        | ok val =>
          cases hv : validateWithZod rest args with
          | error e2 =>
            simp [validateWithZod, hu, hd, hp, hv] at h
            subst h
            exact validateWithZod_error_single rest args e2 hv
          | ok vs => simp [validateWithZod, hu, hd, hp, hv] at h

/-- C8 amended: validation short-circuits — every validation failure
carries exactly one `{field path, message}` entry, and when the first
declared field fails (and is not skipped as an absent optional), the
result is exactly that field's single-entry failure, whatever later
fields would do. -/
theorem validation_short_circuits :
    (∀ (shape : ZodShape) (args : List (String × JsonValue)) (issues : List ZodIssue),
       validateWithZod shape args = .error issues → issues.length = 1) ∧
    (∀ (key : String) (schema : ZodType) (rest : ZodShape)
       (args : List (String × JsonValue)) (m : String),
       ((objGet args key).isUndef && isZodOptional schema) = false →
       schema.parse (objGet args key) = .error m →
       validateWithZod (.cons key schema rest) args =
         .error [⟨"custom", [key], m⟩]) := by
  constructor
  · exact validateWithZod_error_single
  · intro key schema rest args m hcond hparse
    simp [validateWithZod, hcond, hparse]

theorem validation_short_circuits_witness :
    ([(⟨"custom", ["a"], "Expected number, received string"⟩ : ZodIssue)].length = 1) ∧
    validateWithZod (.cons "a" (.number [] none) .nil) [("a", .str "x")] =
      .error [⟨"custom", ["a"], "Expected number, received string"⟩] :=
  ⟨validation_short_circuits.1 (.cons "a" (.number [] none) .nil) [("a", .str "x")]
     [⟨"custom", ["a"], "Expected number, received string"⟩]
     (by simp [validateWithZod, ZodType.parse, objGet, mapGet, isZodOptional,
       JsonValue.isUndef, JsonValue.typeName]),
   validation_short_circuits.2 "a" (.number [] none) .nil [("a", .str "x")]
     "Expected number, received string"
     (by simp [objGet, mapGet, JsonValue.isUndef, isZodOptional])
     (by simp [ZodType.parse, objGet, mapGet, JsonValue.typeName])⟩

/-- The eight method strings `handleRequest` recognises. -/
def recognizedMethods : List String :=
  ["initialize", "notifications/initialized", "tools/list", "tools/call",
   "resources/list", "resources/read", "prompts/list", "prompts/get"]

theorem handleRequest_method_not_found (s : MCPServer) (p : Option RequestParams)
    (m : String) (hm : m ∉ recognizedMethods) :
    s.handleRequest { method := m, params := p } = .error ("Method not found: " ++ m) := by
  simp [recognizedMethods] at hm
  obtain ⟨h1, h2, h3, h4, h5, h6, h7, h8⟩ := hm
  simp [MCPServer.handleRequest, h1, h2, h3, h4, h5, h6, h7, h8]

/-- C9 counterexample: the empty method string is outside the eight
recognized methods and `handleRequest` would report it as method-not-found,
but the transport rejects it earlier as a malformed envelope: the response
carries `-32600`, not `-32601` as the claim requires for every
unrecognized method string. -/
theorem dispatch_empty_method_counterexample :
    ("" ∉ recognizedMethods) ∧
    defaultServer.handleRequest { method := "", params := none } =
      .error ("Method not found: " ++ "") ∧
    responseErrorCode (handleMCPRequest defaultServer true
      (some { jsonrpc := some "2.0", method := some "", params := none, id := .num 1 }) []) =
      some (.num (-32600)) ∧
    (-32600 : Int) ≠ -32601 :=
  ⟨by decide, rfl, rfl, by decide⟩

/-- C9 amended: each of the eight recognized methods dispatches to exactly
its handler; any other method string makes `handleRequest` throw
`Method not found: <method>`; and for such a request whose method string
is nonempty the transport response carries code `-32601` with the thrown
message (an empty method string never reaches dispatch: the transport
rejects it as a malformed envelope with `-32600`). -/
theorem dispatch_completeness :
    (∀ (s : MCPServer) (p : Option RequestParams),
       s.handleRequest { method := "initialize", params := p } =
         .ok (some s.handleInitialize)) ∧
    (∀ (s : MCPServer) (p : Option RequestParams),
       s.handleRequest { method := "notifications/initialized", params := p } = .ok none) ∧
    (∀ (s : MCPServer) (p : Option RequestParams),
       s.handleRequest { method := "tools/list", params := p } =
         .ok (some s.handleToolsList)) ∧
    (∀ (s : MCPServer) (p : Option RequestParams),
       s.handleRequest { method := "tools/call", params := p } =
         (s.handleToolsCall p).map some) ∧
    (∀ (s : MCPServer) (p : Option RequestParams),
       s.handleRequest { method := "resources/list", params := p } =
         .ok (some s.handleResourcesList)) ∧
    (∀ (s : MCPServer) (p : Option RequestParams),
       s.handleRequest { method := "resources/read", params := p } =
         (s.handleResourcesRead p).map some) ∧
    (∀ (s : MCPServer) (p : Option RequestParams),
       s.handleRequest { method := "prompts/list", params := p } =
         .ok (some s.handlePromptsList)) ∧
    (∀ (s : MCPServer) (p : Option RequestParams),
       s.handleRequest { method := "prompts/get", params := p } =
         (s.handlePromptsGet p).map some) ∧
    (∀ (s : MCPServer) (p : Option RequestParams) (m : String), m ∉ recognizedMethods →
       s.handleRequest { method := m, params := p } =
         .error ("Method not found: " ++ m)) ∧
    (∀ (s : MCPServer) (msg : JsonRpcMessage) (m : String)
       (cors : List (String × String)),
       msg.jsonrpc = some "2.0" → msg.method = some m → m ≠ "" →
       m ∉ recognizedMethods →
       handleMCPRequest s true (some msg) cors =
         createErrorResponse 500 (-32601) ("Method not found: " ++ m) cors msg.id) := by
  refine ⟨fun s p => rfl, fun s p => rfl, fun s p => rfl, fun s p => rfl, fun s p => rfl,
    fun s p => rfl, fun s p => rfl, fun s p => rfl,
    handleRequest_method_not_found, ?_⟩
  intro s msg m cors hrpc hmethod hne hm
  have hdisp := handleRequest_method_not_found s msg.params m hm
  have hcode := errorCodeFor_method_not_found m
  simp [handleMCPRequest, jsonrpcFieldInvalid, methodFieldMissing, hrpc, hmethod, hne,
    hdisp, hcode]

theorem dispatch_completeness_witness :
    ("foo/bar" ∉ recognizedMethods ∧
      defaultServer.handleRequest { method := "foo/bar", params := none } =
        .error ("Method not found: " ++ "foo/bar")) ∧
    handleMCPRequest defaultServer true
      (some { jsonrpc := some "2.0", method := some "foo/bar", params := none, id := .num 3 }) [] =
      createErrorResponse 500 (-32601) ("Method not found: " ++ "foo/bar") [] (.num 3) :=
  ⟨⟨by decide, dispatch_completeness.2.2.2.2.2.2.2.2.1 defaultServer none "foo/bar" (by decide)⟩,
   dispatch_completeness.2.2.2.2.2.2.2.2.2 defaultServer
     { jsonrpc := some "2.0", method := some "foo/bar", params := none, id := .num 3 }
     "foo/bar" [] rfl rfl (by decide) (by decide)⟩

/-- C10: a dispatch exception's JSON-RPC code is chosen purely by substring
tests on its message (`Method not found` → `-32601`, else `not found` or
`required` → `-32602`, else `-32603`), always under HTTP status 500; in
particular a `resources/read` whose user handler throws a message
containing `required` is answered with the caller-error code `-32602`
rather than the internal code `-32603`. -/
theorem transport_error_code_mapping :
    (∀ (s : MCPServer) (msg : JsonRpcMessage) (m e : String)
       (cors : List (String × String)),
       msg.jsonrpc = some "2.0" → msg.method = some m → m ≠ "" →
       s.handleRequest { method := m, params := msg.params } = .error e →
       handleMCPRequest s true (some msg) cors =
         createErrorResponse 500
           (if strIncludes e "Method not found" then -32601
            else if strIncludes e "not found" || strIncludes e "required" then -32602
            else -32603) e cors msg.id) ∧
    (readFailServer.handleRequest { method := "resources/read", params := some cfgParams } =
       .error "Resource read error: token required" ∧
     strIncludes "Resource read error: token required" "required" = true ∧
     handleMCPRequest readFailServer true
       (some { jsonrpc := some "2.0", method := some "resources/read"
             , params := some cfgParams, id := .num 5 }) [] =
       createErrorResponse 500 (-32602) "Resource read error: token required" [] (.num 5) ∧
     (-32602 : Int) ≠ -32603) := by
  constructor
  · intro s msg m e cors hrpc hmethod hne hdisp
    simp [handleMCPRequest, jsonrpcFieldInvalid, methodFieldMissing, hrpc, hmethod, hne,
      hdisp, errorCodeFor]
  · exact ⟨rfl, by decide, rfl, by decide⟩

theorem transport_error_code_mapping_witness :
    handleMCPRequest readFailServer true
      (some { jsonrpc := some "2.0", method := some "resources/read"
            , params := some cfgParams, id := .num 5 }) [] =
      createErrorResponse 500
        (if strIncludes "Resource read error: token required" "Method not found" then -32601
         else if strIncludes "Resource read error: token required" "not found" ||
                 strIncludes "Resource read error: token required" "required" then -32602
         else -32603) "Resource read error: token required" [] (.num 5) :=
  transport_error_code_mapping.1 readFailServer
    { jsonrpc := some "2.0", method := some "resources/read"
    , params := some cfgParams, id := .num 5 }
    "resources/read" "Resource read error: token required" [] rfl rfl (by decide) rfl
